import Mathlib

/-!
Verification of the OIG election contract.

Shallow embedding of `src/oig/src/oig.cpp` (contract class declared in the
accompanying header).  The contract orchestrates a recurring election:
an `election` singleton record drives a state machine (`state_refresh`),
a `nominations` table with a spam-purge policy, a `nominees` profile table,
and two voter vectors (`voter` = pending, `synced_voter` = synced) guarded
by per-voter `reggedvoters` flags.

Machine integers are modelled as `Nat` with explicit wrap-around
(`u8` for `uint8_t` counters, `u64` for `name` values); `time_point_sec`
is the number of seconds as a `Nat`.  Each contract action is a function
from the persisted chain state (plus its arguments, the current time and
the set of accounts that authorised the transaction) to
`Except String (Chain × List ExtAct)`: an error models the C++ `check` /
`require_auth` abort (which reverts every write of the invocation), and
the `ExtAct` list records the inline actions sent to the external
`decide` / `eosio.token` contracts, in emission order.  A `require_auth(a)`
call is rendered as `if a ∈ auths then ... else .error ...`, and
`elections.get()` (which asserts when the singleton was never written) as
a `match` on the optional stored record.
-/

namespace OigContract

/-- An eosio account name, represented by its `uint64` value. -/
abbrev AccountName := Nat

/-- The `uint64` wrap-around. -/
def u64 (x : Nat) : Nat := x % 2 ^ 64

/-- The `uint8` increment, as in `++count` on a `uint8_t`. -/
def u8inc (x : Nat) : Nat := (x + 1) % 256

/-- The `uint8` decrement, as in `--count` on a `uint8_t`. -/
def u8dec (x : Nat) : Nat := (x + 255) % 256

/-- The value of `name("oig")`: characters o, i, g encoded in the top
5-bit groups of a `uint64` (eosio name encoding). -/
def selfAccount : AccountName := 20 * 2 ^ 59 + 14 * 2 ^ 54 + 12 * 2 ^ 49

/-- The abort message of a failing `require_auth`. -/
def missingAuthMsg : String := "missing required authority"

/-- One row of the `nominations` table: `TABLE nomination`. -/
structure Nomination where
  nominee : AccountName
  accepted : Bool
deriving Repr, DecidableEq

/-- One row of the `nominees` profile table: `TABLE nominee`. -/
structure Profile where
  owner : AccountName
  pname : String
  descriptor : String
  picture : String
  telegram : String
  twitter : String
  wechat : String
deriving Repr, DecidableEq

/-- The `election` singleton row: `TABLE election`. -/
structure Election where
  ballot : Nat
  state : Nat
  title : String
  description : String
  content : String
  nom_count : Nat
  voter : List AccountName
  synced_voter : List AccountName
  nmn_open : Nat
  nmn_close : Nat
  vote_open : Nat
  vote_close : Nat
deriving Repr, DecidableEq

/-- The default-constructed `election` row: `ballot = name("oig")`,
`state = 0`, `nom_count = 0`, everything else empty / zero. -/
def defaultElection : Election :=
  { ballot := selfAccount
    state := 0
    title := ""
    description := ""
    content := ""
    nom_count := 0
    voter := []
    synced_voter := []
    nmn_open := 0
    nmn_close := 0
    vote_open := 0
    vote_close := 0 }

/-- The persisted state of the contract: the `election` singleton (absent
until first written), the `nominations` and `nominees` tables (kept in
primary-key order, as a `multi_index` iterates them), and the set of
voters holding a `reggedvoters` flag. -/
structure Chain where
  elect? : Option Election
  nominations : List Nomination
  nominees : List Profile
  regged : List AccountName
deriving Repr, DecidableEq

/-- Inline actions sent to the external contracts. -/
inductive ExtAct where
  | regVoterCall (voter : AccountName)
  | syncCall (voter : AccountName)
  | rebalanceCall (voter ballot : AccountName)
  | transferFee
  | newBallot (ballot publisher : AccountName) (options : List AccountName)
  | editDetails (ballot : AccountName)
  | toggleBal (ballot : AccountName)
  | openVoting (ballot : AccountName) (endTime : Nat)
  | closeVoting (ballot : AccountName)
deriving Repr, DecidableEq

/-- Result type of one contract action. -/
abbrev ActResult := Except String (Chain × List ExtAct)

/-- The election record an action reads via `get_or_default` /
`get_or_create`: the stored one, or the default row. -/
def electOf (ch : Chain) : Election := ch.elect?.getD defaultElection

/-- Ordered insertion into a `multi_index` table sorted by nominee key
(`emplace` keeps primary-key order). -/
def nmInsert (n : Nomination) : List Nomination → List Nomination
  | [] => [n]
  | m :: ms => if n.nominee < m.nominee then n :: m :: ms else m :: nmInsert n ms

/-- The lookup `nominations.find(nominee.value)`. -/
def nmFind (k : AccountName) (l : List Nomination) : Option Nomination :=
  l.find? fun m => m.nominee == k

/-- Ordered insertion into the `nominees` table, sorted by owner key. -/
def pfInsert (p : Profile) : List Profile → List Profile
  | [] => [p]
  | q :: qs => if p.owner < q.owner then p :: q :: qs else q :: pfInsert p qs

/-- The lookup `nominees.find(nominee.value)`. -/
def pfFind (k : AccountName) (l : List Profile) : Option Profile :=
  l.find? fun p => p.owner == k

/-! ## `init()` — oig.cpp lines 28-49

Reads the singleton with `get_or_create` (so a fresh contract yields the
default row, whose `state` is 0), then `check(elect.state == 10, ...)`,
then registers the contract itself as a voter on decide and stores
`state = 0`. -/

def init (ch : Chain) (auths : List AccountName) : ActResult :=
  if selfAccount ∈ auths then
    let elect := electOf ch
    if elect.state = 10 then
      .ok ({ ch with elect? := some { elect with state := 0 } },
           [ExtAct.regVoterCall selfAccount])
    else
      .error "Contract already initialized."
  else .error missingAuthMsg

/-! ## `inaugurate(...)` — oig.cpp lines 72-118

Creates (cancel = false) or cancels (cancel = true) an election.  Reads the
singleton with `get_or_default`. -/

def inaugurate (ch : Chain) (title description content : String)
    (nmn_open nmn_close vote_open vote_close : Nat) (cancel : Bool)
    (now : Nat) (auths : List AccountName) : ActResult :=
  if selfAccount ∈ auths then
    let elect := electOf ch
    if elect.state = 10 then .error "Contract not initialized." else
    if cancel then
      if ¬ (elect.state ≤ 2) then .error "Can\x27t cancel once ballot is created." else
      if elect.state = 0 then .error "No Election running." else
      let elect' := { elect with ballot := u64 (elect.ballot + 2 ^ 64 - 1), state := 6 }
      .ok ({ ch with elect? := some elect' }, [])
    else
      if elect.state = 5 then .error "Cleanup required." else
      if elect.state = 6 then .error "Cleanup in progress." else
      if ¬ (elect.state = 0) then .error "Election already running." else
      if title.isEmpty then .error "title required" else
      if description.isEmpty then .error "description required" else
      if ¬ (now ≤ nmn_open) then .error "dates need to be in the future" else
      if ¬ (nmn_open < nmn_close) then .error "nomination duration needs to be positive" else
      if ¬ (nmn_close < vote_open) then .error "voting period can\x27t overlap with nomination period" else
      if ¬ (vote_open < vote_close) then .error "voting duration needs to be positive" else
      let elect' := { elect with
                      ballot := u64 (elect.ballot + 1), state := 1,
                      title := title, description := description, content := content,
                      nmn_open := nmn_open, nmn_close := nmn_close,
                      vote_open := vote_open, vote_close := vote_close }
      .ok ({ ch with elect? := some elect' }, [])
  else .error missingAuthMsg

/-! ## Voter-moving loops

Both the synchronization loop (oig.cpp lines 606-634, batch 100) and the
cleanup migration loop (lines 683-688, batch 200) repeatedly take
`voter.back()`, `push_back` it onto `synced_voter`, and `pop_back` it off
`voter`; the sync loop additionally sends a `sync` and a `rebalance` inline
action per moved voter.  The fuel argument is the remaining batch budget. -/

/-- One `back` / `push_back` / `pop_back` move from `voter` to
`synced_voter`, iterated `fuel` times (stopping early on empty `voter`). -/
def moveLoop : Nat → Election → Election
  | 0, e => e
  | fuel + 1, e =>
    match e.voter.getLast? with
    | none => e
    | some v =>
      moveLoop fuel
        { e with voter := e.voter.dropLast, synced_voter := e.synced_voter ++ [v] }

/-- The voting-close synchronization loop: `moveLoop` plus the
`decide::sync` and `decide::rebalance` inline actions, in emission order. -/
def syncLoop : Nat → Election → Election × List ExtAct
  | 0, e => (e, [])
  | fuel + 1, e =>
    match e.voter.getLast? with
    | none => (e, [])
    | some v =>
      let next := syncLoop fuel
        { e with voter := e.voter.dropLast, synced_voter := e.synced_voter ++ [v] }
      (next.1, ExtAct.syncCall v :: ExtAct.rebalanceCall v e.ballot :: next.2)

/-! ## `cleanup()` — oig.cpp lines 658-696

`require_auth(get_self())`; clears the `nominees` and `nominations`
tables; resets `nom_count`; then, only when `synced_voter` is non-empty,
either migrates up to 200 entries of `voter` into `synced_voter` (when
`voter` is non-empty) or swaps `synced_voter` back into `voter`, clears
it, and resets `state` to 0. -/

def cleanup (ch : Chain) (auths : List AccountName) : ActResult :=
  if selfAccount ∈ auths then
    match ch.elect? with
    | none => .error "singleton does not exist"
    | some elect =>
      let elect := { elect with nom_count := 0 }
      let elect :=
        if ¬ elect.synced_voter.isEmpty then
          if ¬ elect.voter.isEmpty then
            moveLoop 200 elect
          else
            { elect with voter := elect.synced_voter, synced_voter := [], state := 0 }
        else elect
      .ok ({ ch with elect? := some elect, nominations := [], nominees := [] }, [])
  else .error missingAuthMsg

/-! ## `state_refresh()` — oig.cpp lines 493-648

The step function.  Reads the singleton with `elections.get()` and
switches on `elect.state` (rendered as an `if` chain on the `uint8`
value, mirroring the C `switch`).  Every branch that changes nothing
returns the chain unmodified with no inline actions; state 6 delegates to
`cleanup()` (which performs its own `require_auth`). -/

def state_refresh (ch : Chain) (now : Nat) (auths : List AccountName) : ActResult :=
  match ch.elect? with
  | none => .error "singleton does not exist"
  | some elect =>
    if elect.state = 0 then .ok (ch, [])
    else if elect.state = 1 then
      if elect.nmn_open ≤ now then
        .ok ({ ch with elect? := some { elect with state := 2 } }, [])
      else .ok (ch, [])
    else if elect.state = 2 then
      if elect.nmn_close ≤ now then
        let ballot_options := (ch.nominations.filter (·.accepted)).map (·.nominee)
        if 2 ≤ ballot_options.length then
          .ok ({ ch with elect? := some { elect with state := 3 } },
               [ExtAct.transferFee,
                ExtAct.newBallot elect.ballot selfAccount ballot_options,
                ExtAct.editDetails elect.ballot,
                ExtAct.toggleBal elect.ballot])
        else .ok (ch, [])
      else .ok (ch, [])
    else if elect.state = 3 then
      if elect.vote_open ≤ now then
        .ok ({ ch with elect? := some { elect with state := 4 } },
             [ExtAct.openVoting elect.ballot elect.vote_close])
      else .ok (ch, [])
    else if elect.state = 4 then
      if elect.vote_close ≤ now then
        let step := syncLoop 100 elect
        let elect := step.1
        if elect.voter.isEmpty then
          .ok ({ ch with elect? := some { elect with state := 5 } },
               step.2 ++ [ExtAct.closeVoting elect.ballot])
        else
          .ok ({ ch with elect? := some elect }, step.2)
      else .ok (ch, [])
    else if elect.state = 5 then .ok (ch, [])
    else if elect.state = 6 then cleanup ch auths
    else .ok (ch, [])

/-! ## `updtstate()` — oig.cpp lines 320-322 -/

def updtstate (ch : Chain) (now : Nat) (auths : List AccountName) : ActResult :=
  state_refresh ch now auths

/-! ## `nominate(nominator, nominee)` — oig.cpp lines 146-190

Phase checks; duplicate and account-existence checks; the spam purge
(count > 200 removes every unaccepted row, decrementing the `uint8`
count per erase); the self-nomination auto-accept (`count < 150` on the
possibly-purged count); insert; `nom_count = ++count`; `state_refresh`. -/

/-- The purge scan: iterates the table in order, erasing unaccepted rows
and decrementing the running `uint8` count for each erase. -/
def purgeNoms : List Nomination → Nat → List Nomination × Nat
  | [], c => ([], c)
  | m :: ms, c =>
    if m.accepted then
      let next := purgeNoms ms c
      (m :: next.1, next.2)
    else
      purgeNoms ms (u8dec c)

def nominate (ch : Chain) (nominator nominee : AccountName)
    (accounts : List AccountName) (now : Nat) (auths : List AccountName) : ActResult :=
  if nominator ∈ auths then
    match ch.elect? with
    | none => .error "singleton does not exist"
    | some elect =>
      if elect.state = 0 then .error "No election is currently running." else
      if ¬ (elect.state ≤ 2) then .error "Nomination period has already closed." else
      if (nmFind nominee ch.nominations).isSome then .error "Nomination already exists." else
      if ¬ (nominee ∈ accounts) then .error "Nominated account must exist." else
      let purged :=
        if elect.nom_count > 200 then purgeNoms ch.nominations elect.nom_count
        else (ch.nominations, elect.nom_count)
      let count := purged.2
      let accepted : Bool := decide (nominator = nominee) && decide (count < 150)
      let noms := nmInsert { nominee := nominee, accepted := accepted } purged.1
      let elect := { elect with nom_count := u8inc count }
      state_refresh { ch with elect? := some elect, nominations := noms } now auths
  else .error missingAuthMsg

/-! ## `proclaim(nominee, decision)` — oig.cpp lines 207-238 -/

def proclaim (ch : Chain) (nominee : AccountName) (decision : Bool)
    (now : Nat) (auths : List AccountName) : ActResult :=
  if nominee ∈ auths then
    match ch.elect? with
    | none => .error "singleton does not exist"
    | some elect =>
      if elect.state = 0 then .error "No election is currently running." else
      if ¬ (elect.state ≤ 2) then .error "Nomination period has alreaedy closed." else
      match nmFind nominee ch.nominations with
      | none => .error "Nomination not found."
      | some _ =>
        if decision then
          let noms := ch.nominations.map fun m =>
            if m.nominee = nominee then { m with accepted := true } else m
          state_refresh { ch with nominations := noms } now auths
        else
          let noms := ch.nominations.filter fun m => ¬ (m.nominee = nominee)
          let elect := { elect with nom_count := u8dec elect.nom_count }
          let profs := ch.nominees.filter fun p => ¬ (p.owner = nominee)
          state_refresh
            { ch with elect? := some elect, nominations := noms, nominees := profs }
            now auths
  else .error missingAuthMsg

/-! ## `nominf(nominee, ...)` — oig.cpp lines 257-311 -/

def nominf (ch : Chain) (nominee : AccountName)
    (pname descriptor picture telegram twitter wechat : String) (remove : Bool)
    (now : Nat) (auths : List AccountName) : ActResult :=
  if nominee ∈ auths then
    match ch.elect? with
    | none => .error "singleton does not exist"
    | some elect =>
      if ¬ (elect.state ≤ 3) then .error "Voting has already commenced." else
      match nmFind nominee ch.nominations with
      | none => .error "Account not nominated."
      | some nmne =>
        if ¬ nmne.accepted then .error "Nomination not accepted." else
        let existing := pfFind nominee ch.nominees
        if remove then
          if existing.isNone then .error "can\x27t delete non-existing record" else
          state_refresh
            { ch with nominees := ch.nominees.filter fun p => ¬ (p.owner = nominee) }
            now auths
        else
          if pname.isEmpty then .error "name required" else
          if ¬ (pname.length ≤ 99) then .error "name too long" else
          if ¬ (descriptor.length ≤ 2000) then .error "description too long" else
          if ¬ (picture.length ≤ 256) then .error "picture too long" else
          if ¬ (picture.isEmpty) ∧ ¬ (picture.take 4 = "http") then
            .error "picture should begin with http" else
          if ¬ (telegram.length ≤ 99) then .error "telegram too long" else
          if ¬ (twitter.length ≤ 99) then .error "twitter too long" else
          if ¬ (wechat.length ≤ 99) then .error "wechat too long" else
          let row : Profile :=
            { owner := nominee, pname := pname, descriptor := descriptor,
              picture := picture, telegram := telegram, twitter := twitter, wechat := wechat }
          let profs :=
            if existing.isNone then pfInsert row ch.nominees
            else ch.nominees.map fun p => if p.owner = nominee then row else p
          state_refresh { ch with nominees := profs } now auths
  else .error missingAuthMsg

/-! ## `regvoter(voter)` — oig.cpp lines 341-382

Idempotent per-voter registration.  Note: unlike every other mutating
action of the contract, `regvoter` does NOT end with a call to
`state_refresh`. -/

def regvoter (ch : Chain) (voter : AccountName)
    (accounts : List AccountName) (auths : List AccountName) : ActResult :=
  if voter ∈ auths then
    if ¬ (voter ∈ accounts) then .error "Voter account must exist." else
    match ch.elect? with
    | none => .error "singleton does not exist"
    | some elect =>
      if voter ∈ ch.regged then
        .ok (ch, [])
      else
        let elect :=
          if ¬ elect.synced_voter.isEmpty then
            if elect.voter.length ≠ 0 then
              { elect with voter := elect.voter ++ [voter] }
            else
              { elect with synced_voter := elect.synced_voter ++ [voter] }
          else
            { elect with voter := elect.voter ++ [voter] }
        .ok ({ ch with elect? := some elect, regged := voter :: ch.regged },
             [ExtAct.regVoterCall voter])
  else .error missingAuthMsg

/-! ## `endelection()` — oig.cpp lines 393-404 -/

def endelection (ch : Chain) (now : Nat) (auths : List AccountName) : ActResult :=
  if selfAccount ∈ auths then
    match ch.elect? with
    | none => .error "singleton does not exist"
    | some elect =>
      if ¬ (elect.state = 5) then .error "Voting needs to have concluded." else
      state_refresh { ch with elect? := some { elect with state := 6 } } now auths
  else .error missingAuthMsg

/-! ## Helper definitions and lemmas -/

/-- Evaluation `chainOf r fallback`: the chain state after an invocation whose result
is `r`; an aborted invocation reverts every write, leaving `fallback`. -/
def chainOf (r : ActResult) (fallback : Chain) : Chain :=
  match r with
  | .ok p => p.1
  | .error _ => fallback

/-- Characterization of the back-to-back move loop: it transfers the last
`min fuel (length voter)` entries of `voter` onto the end of
`synced_voter`, in reverse order. -/
theorem moveLoop_spec (n : Nat) (e : Election) :
    moveLoop n e =
      { e with
        voter := e.voter.take (e.voter.length - n),
        synced_voter :=
          e.synced_voter ++ (e.voter.drop (e.voter.length - n)).reverse } := by
  induction n generalizing e with
  | zero =>
    simp [moveLoop]
  | succ n ih =>
    rcases List.eq_nil_or_concat e.voter with h | ⟨vs, v, h⟩
    · rcases e with ⟨b, s, t, d, c, nc, vo, sv, a1, a2, a3, a4⟩
      simp only at h
      subst h
      simp [moveLoop]
    · rw [List.concat_eq_append] at h
      have hlen : e.voter.length = vs.length + 1 := by simp [h]
      have hsub : vs.length + 1 - (n + 1) = vs.length - n := by omega
      have hle : vs.length - n ≤ vs.length := Nat.sub_le _ _
      rw [moveLoop, h, List.getLast?_concat, List.dropLast_concat]
      simp [ih, h, hlen, hsub, List.take_append_of_le_length hle,
        List.drop_append_of_le_length hle, List.reverse_append]

/-- The chain-state effect of the synchronization loop is exactly
`moveLoop`. -/
theorem syncLoop_fst (n : Nat) (e : Election) : (syncLoop n e).1 = moveLoop n e := by
  induction n generalizing e with
  | zero => simp [syncLoop, moveLoop]
  | succ n ih =>
    cases h : e.voter.getLast? with
    | none => simp [syncLoop, moveLoop, h]
    | some v => simp [syncLoop, moveLoop, h, ih]

/-- The transition guard of the step function: holds iff, at time `now`,
the `state_refresh` case for the state of the record takes a transition (or,
for state 2, attempts ballot creation).  For `Cleanup` (state 6) the
guard always holds, since the step function unconditionally runs
`cleanup()` there. -/
def DueGuard (ch : Chain) (elect : Election) (now : Nat) : Prop :=
  if elect.state = 1 then elect.nmn_open ≤ now
  else if elect.state = 2 then
    elect.nmn_close ≤ now ∧
      2 ≤ ((ch.nominations.filter (·.accepted)).map (·.nominee)).length
  else if elect.state = 3 then elect.vote_open ≤ now
  else if elect.state = 4 then elect.vote_close ≤ now
  else if elect.state = 6 then True
  else False

instance (ch : Chain) (elect : Election) (now : Nat) :
    Decidable (DueGuard ch elect now) := by
  unfold DueGuard
  infer_instance

/-- When no transition guard holds, the step function leaves the chain
unchanged and sends no inline actions. -/
theorem state_refresh_not_due (ch : Chain) (elect : Election) (now : Nat)
    (auths : List AccountName) (hsome : ch.elect? = some elect)
    (hdue : ¬ DueGuard ch elect now) :
    state_refresh ch now auths = .ok (ch, []) := by
  unfold state_refresh
  rw [hsome]
  by_cases h0 : elect.state = 0
  · simp [h0]
  by_cases h1 : elect.state = 1
  · simp only [DueGuard, h1, if_true] at hdue
    simp [h0, h1, hdue]
  by_cases h2 : elect.state = 2
  · simp [DueGuard, h2] at hdue
    by_cases hc : elect.nmn_close ≤ now
    · simp [h0, h1, h2, hc, Nat.not_le.mpr (hdue hc)]
    · simp [h0, h1, h2, hc]
  by_cases h3 : elect.state = 3
  · simp [DueGuard, h3] at hdue
    simp [h0, h1, h2, h3, Nat.not_le.mpr hdue]
  by_cases h4 : elect.state = 4
  · simp [DueGuard, h4] at hdue
    simp [h0, h1, h2, h3, h4, Nat.not_le.mpr hdue]
  by_cases h5 : elect.state = 5
  · simp [h0, h1, h2, h3, h4, h5]
  by_cases h6 : elect.state = 6
  · simp [DueGuard, h1, h2, h3, h4, h6] at hdue
  · simp [h0, h1, h2, h3, h4, h5, h6]

/-- Running `cleanup` with the operator authorization present succeeds. -/
theorem cleanup_ok (ch : Chain) (elect : Election) (auths : List AccountName)
    (hsome : ch.elect? = some elect) (hauth : selfAccount ∈ auths) :
    ∃ out, cleanup ch auths = .ok out := by
  unfold cleanup
  rw [hsome, if_pos hauth]
  exact ⟨_, rfl⟩

/-- Running `cleanup` without the operator authorization aborts. -/
theorem cleanup_noauth (ch : Chain) (auths : List AccountName)
    (hauth : selfAccount ∉ auths) :
    cleanup ch auths = .error missingAuthMsg := by
  unfold cleanup
  rw [if_neg hauth]

/-- In state 6 the step function is exactly `cleanup`. -/
theorem state_refresh_state6 (ch : Chain) (elect : Election) (now : Nat)
    (auths : List AccountName) (hsome : ch.elect? = some elect)
    (h6 : elect.state = 6) :
    state_refresh ch now auths = cleanup ch auths := by
  unfold state_refresh
  rw [hsome]
  simp [h6]

/-- In every state other than 6 the step function succeeds, regardless of
the authorizations of the caller. -/
theorem state_refresh_ok_of_ne6 (ch : Chain) (elect : Election) (now : Nat)
    (auths : List AccountName) (hsome : ch.elect? = some elect)
    (h6 : elect.state ≠ 6) :
    ∃ out, state_refresh ch now auths = .ok out := by
  unfold state_refresh
  rw [hsome]
  by_cases h0 : elect.state = 0
  · simp [h0]
  by_cases h1 : elect.state = 1
  · rcases Decidable.em (elect.nmn_open ≤ now) with hc | hc <;> simp [h0, h1, hc]
  by_cases h2 : elect.state = 2
  · rcases Decidable.em (elect.nmn_close ≤ now) with hc | hc
    · rcases Decidable.em (2 ≤ (ch.nominations.filter (·.accepted)).length) with hl | hl <;>
        simp [h0, h1, h2, hc, hl]
    · simp [h0, h1, h2, hc]
  by_cases h3 : elect.state = 3
  · rcases Decidable.em (elect.vote_open ≤ now) with hc | hc <;> simp [h0, h1, h2, h3, hc]
  by_cases h4 : elect.state = 4
  · rcases Decidable.em (elect.vote_close ≤ now) with hc | hc
    · rcases Decidable.em ((syncLoop 100 elect).1.voter.isEmpty = true) with hv | hv <;>
        simp [h0, h1, h2, h3, h4, hc, hv]
    · simp [h0, h1, h2, h3, h4, hc]
  by_cases h5 : elect.state = 5
  · simp [h0, h1, h2, h3, h4, h5]
  · simp [h0, h1, h2, h3, h4, h5, h6]

/-- A contract on which nothing has ever been persisted. -/
def freshChain : Chain :=
  { elect? := none, nominations := [], nominees := [], regged := [] }

/-- A chain whose singleton holds `e`, with empty tables. -/
def mkChain (e : Election) : Chain :=
  { elect? := some e, nominations := [], nominees := [], regged := [] }

/-! ## Claim C1 -/

/-- C1: the claim says `initialize()` succeeds when no ElectionRecord has
ever been persisted (the record read being the default one).  The code
disagrees: the default row carries `state = 0`, while `init` demands
`state == 10`, so on a fresh contract `init` always aborts with
"Contract already initialized." — contradicting the code's own comment
that init only "fails if ran more than once".  This theorem evaluates the
code at the failing input. -/
theorem init_on_fresh_contract_fails (ch : Chain) (auths : List AccountName)
    (hfresh : ch.elect? = none) (hauth : selfAccount ∈ auths) :
    init ch auths = .error "Contract already initialized." := by
  simp [init, hauth, electOf, hfresh, defaultElection]

/-- Witness: the concrete fresh contract, with the operator authorized. -/
theorem init_on_fresh_contract_fails_witness :
    init freshChain [selfAccount] = .error "Contract already initialized." :=
  init_on_fresh_contract_fails freshChain [selfAccount] rfl
    (List.mem_singleton.mpr rfl)

/-! ## Claim C10 -/

/-- The record a successful creation call persists, starting from the
default row. -/
def createdRecord (title description content : String) (t1 t2 t3 t4 : Nat) : Election :=
  { defaultElection with
    ballot := u64 (selfAccount + 1)
    state := 1
    title := title
    description := description
    content := content
    nmn_open := t1
    nmn_close := t2
    vote_open := t3
    vote_close := t4 }

/-- C10: `inaugurate` with `cancel = false` on a contract on which `init`
has never been run succeeds: the record read defaults to `state = 0`
(Clean), so the `state == 10` NotInitialized branch is not taken, and a
well-formed call sets `state = 1` (Created) and increments `ballot`. -/
theorem inaugurate_on_fresh_contract (ch : Chain) (title description content : String)
    (t1 t2 t3 t4 now : Nat) (auths : List AccountName)
    (hfresh : ch.elect? = none) (hauth : selfAccount ∈ auths)
    (htitle : ¬ title.isEmpty) (hdesc : ¬ description.isEmpty)
    (h1 : now ≤ t1) (h2 : t1 < t2) (h3 : t2 < t3) (h4 : t3 < t4) :
    inaugurate ch title description content t1 t2 t3 t4 false now auths =
      .ok ({ ch with
              elect? := some (createdRecord title description content t1 t2 t3 t4) },
           []) := by
  simp [inaugurate, hauth, electOf, hfresh, defaultElection, createdRecord,
    htitle, hdesc, h1, h2, h3, h4]

/-- Witness: a concrete well-formed creation call on the fresh contract. -/
theorem inaugurate_on_fresh_contract_witness :
    inaugurate freshChain "t" "d" "c" 10 20 30 40 false 5 [selfAccount] =
      .ok ({ freshChain with
              elect? := some (createdRecord "t" "d" "c" 10 20 30 40) }, []) :=
  inaugurate_on_fresh_contract freshChain "t" "d" "c" 10 20 30 40 5 _ rfl
    (List.mem_singleton.mpr rfl) (by decide) (by decide)
    (by omega) (by omega) (by omega) (by omega)

/-! ## Claim C2 -/

/-- A record stuck in the Cleanup state (6). -/
def stuckCleanupChain : Chain :=
  { elect? := some { defaultElection with state := 6 },
    nominations := [], nominees := [], regged := [] }

/-- C2 counterexample: the claim says the public `updtstate` succeeds for
every reachable state and every caller, in particular in the Cleanup
state.  But in state 6 `state_refresh` runs `cleanup()`, whose
`require_auth(get_self())` aborts for any caller other than the contract:
here a caller authorized only as account 1. -/
theorem updtstate_in_cleanup_without_operator_auth_aborts :
    updtstate stuckCleanupChain 0 [1] = .error missingAuthMsg := by rfl

/-- C2 (amended): `updtstate` itself checks no authorization and succeeds
from every state except Cleanup (state 6), leaving the record unchanged
whenever no transition guard holds; in Cleanup it invokes `cleanup()`,
which requires the operator authorization, so it succeeds there iff the
operator authorized the call. -/
theorem updtstate_public_success_except_cleanup (ch : Chain) (elect : Election)
    (now : Nat) (auths : List AccountName) (hsome : ch.elect? = some elect) :
    (elect.state ≠ 6 → ∃ out, updtstate ch now auths = .ok out) ∧
    (¬ DueGuard ch elect now → updtstate ch now auths = .ok (ch, [])) ∧
    (elect.state = 6 → selfAccount ∈ auths → ∃ out, updtstate ch now auths = .ok out) ∧
    (elect.state = 6 → selfAccount ∉ auths →
      updtstate ch now auths = .error missingAuthMsg) := by
  refine ⟨?_, ?_, ?_, ?_⟩
  · intro h6
    exact state_refresh_ok_of_ne6 ch elect now auths hsome h6
  · intro hdue
    exact state_refresh_not_due ch elect now auths hsome hdue
  · intro h6 hauth
    rw [updtstate, state_refresh_state6 ch elect now auths hsome h6]
    exact cleanup_ok ch elect auths hsome hauth
  · intro h6 hauth
    rw [updtstate, state_refresh_state6 ch elect now auths hsome h6]
    exact cleanup_noauth ch auths hauth

/-- A record resting in state 5 (voting concluded). -/
def concludedChain : Chain := mkChain { defaultElection with state := 5 }

/-- Witness for the amended C2 statement, at a record in state 5
(no guard due, unauthenticated caller) and at the stuck Cleanup record
with the operator authorization. -/
theorem updtstate_public_success_except_cleanup_witness :
    (∃ out, updtstate concludedChain 0 [] = .ok out) ∧
    updtstate concludedChain 0 [] = .ok (concludedChain, []) ∧
    (∃ out, updtstate stuckCleanupChain 0 [selfAccount] = .ok out) := by
  refine ⟨?_, ?_, ?_⟩
  · exact (updtstate_public_success_except_cleanup concludedChain
      { defaultElection with state := 5 } 0 [] rfl).1 (by decide)
  · exact (updtstate_public_success_except_cleanup concludedChain
      { defaultElection with state := 5 } 0 [] rfl).2.1 (by decide)
  · exact (updtstate_public_success_except_cleanup stuckCleanupChain
      { defaultElection with state := 6 } 0 [selfAccount] rfl).2.2.1
      rfl (List.mem_singleton.mpr rfl)

/-! ## Claim C3 -/

/-- A Cleanup-state record from a cancelled election with no registered
voters: both voter vectors empty. -/
def cancelledEmptyChain : Chain :=
  { elect? := some { defaultElection with state := 6 },
    nominations := [], nominees := [], regged := [] }

/-- C3 counterexample: the claim says every Cleanup-state record whose
`pendingVoters` is empty reaches `state = Clean`, including records with
an empty `syncedVoters` collection.  But the code resets the state only
inside the `!synced_voter.empty()` branch, so with both vectors empty one
cleanup invocation changes nothing at all: the record stays in state 6
forever. -/
theorem cleanup_empty_synced_never_reaches_clean :
    cleanup cancelledEmptyChain [selfAccount] = .ok (cancelledEmptyChain, []) ∧
    (electOf cancelledEmptyChain).state = 6 := by
  constructor
  · rfl
  · rfl

set_option maxRecDepth 4096 in
/-- C3 (amended): one cleanup invocation on a Cleanup-state record (with
the operator authorization the code demands) empties the nomination and
profile registries and resets `nom_count` to 0; when `syncedVoters` is
non-empty it migrates up to 200 `pendingVoters` into `syncedVoters`
(staying in Cleanup) or, if `pendingVoters` is already empty, swaps
`syncedVoters` into `pendingVoters`, clears it and sets `state = Clean`;
but when `syncedVoters` is empty the voter vectors and the state are left
unchanged, so such a record never reaches Clean. -/
theorem cleanup_characterization (ch : Chain) (elect : Election)
    (auths : List AccountName) (hsome : ch.elect? = some elect)
    (hstate : elect.state = 6) (hauth : selfAccount ∈ auths) :
    ∃ e', cleanup ch auths =
        .ok ({ ch with elect? := some e', nominations := [], nominees := [] }, []) ∧
      e'.nom_count = 0 ∧
      (elect.synced_voter = [] →
        e'.voter = elect.voter ∧ e'.synced_voter = [] ∧ e'.state = 6) ∧
      (elect.synced_voter ≠ [] → elect.voter = [] →
        e'.voter = elect.synced_voter ∧ e'.synced_voter = [] ∧ e'.state = 0) ∧
      (elect.synced_voter ≠ [] → elect.voter ≠ [] →
        e'.voter = elect.voter.take (elect.voter.length - 200) ∧
        e'.synced_voter =
          elect.synced_voter ++ (elect.voter.drop (elect.voter.length - 200)).reverse ∧
        e'.state = 6) := by
  unfold cleanup
  rw [hsome, if_pos hauth]
  by_cases hsv : elect.synced_voter = []
  · refine ⟨{ elect with nom_count := 0 }, ?_, rfl, ?_, ?_, ?_⟩
    · simp [hsv]
    · exact fun _ => ⟨rfl, hsv, hstate⟩
    · exact fun h => absurd hsv h
    · exact fun h => absurd hsv h
  · by_cases hv : elect.voter = []
    · refine ⟨{ elect with nom_count := 0, voter := elect.synced_voter, synced_voter := [], state := 0 }, ?_, rfl, ?_, ?_, ?_⟩
      · simp [hsv, hv, List.isEmpty_iff]
      · exact fun h => absurd h hsv
      · exact fun _ _ => ⟨rfl, rfl, rfl⟩
      · exact fun _ h => absurd hv h
    · refine ⟨moveLoop 200 ({ elect with nom_count := 0 }), ?_, ?_, ?_, ?_, ?_⟩
      · simp [hsv, hv, List.isEmpty_iff]
      · rw [moveLoop_spec]
      · exact fun h => absurd h hsv
      · exact fun _ h => absurd h hv
      · intro _ _
        rw [moveLoop_spec]
        exact ⟨rfl, rfl, hstate⟩

/-- A Cleanup-state record with one synced voter and no pending voters. -/
def swapReadyChain : Chain :=
  { elect? := some { defaultElection with state := 6, synced_voter := [5] },
    nominations := [], nominees := [], regged := [5] }

/-- Witness for the amended C3 statement: a Cleanup record with one
synced voter and empty pending list is swapped back and reaches Clean. -/
theorem cleanup_characterization_witness :
    ∃ e', cleanup swapReadyChain [selfAccount] =
        .ok ({ swapReadyChain with elect? := some e' }, []) ∧
      e'.voter = [5] ∧ e'.state = 0 := by
  obtain ⟨e', hrun, _, _, hswap, _⟩ :=
    cleanup_characterization swapReadyChain
      { defaultElection with state := 6, synced_voter := [5] }
      [selfAccount] rfl rfl (List.mem_singleton.mpr rfl)
  obtain ⟨hv, _, hs⟩ := hswap (by decide) rfl
  exact ⟨e', hrun, hv, hs⟩

/-! ## Claim C4 -/

/-- A VotingOpen record with 101 pending voters whose deadline passed. -/
def overfullVotingChain : Chain :=
  mkChain { defaultElection with state := 4, vote_close := 10, voter := List.range 101 }

/-- The chain after one public advance at time 10. -/
def overfullVotingOnce : Chain :=
  chainOf (updtstate overfullVotingChain 10 []) overfullVotingChain

/-- The chain after two public advances at time 10. -/
def overfullVotingTwice : Chain :=
  chainOf (updtstate overfullVotingOnce 10 []) overfullVotingOnce

/-- C4 counterexample: with more than 100 pending voters at a passed
voting deadline, the first advance syncs only a batch of 100 and stays in
VotingOpen, while a second advance at the same time snapshot syncs the
rest and closes voting — so two invocations do NOT yield the same final
state as one. -/
theorem double_advance_differs_from_single :
    (electOf overfullVotingOnce).state = 4 ∧
    (electOf overfullVotingOnce).voter.length = 1 ∧
    (electOf overfullVotingTwice).state = 5 ∧
    (electOf overfullVotingTwice).voter.length = 0 ∧
    overfullVotingTwice ≠ overfullVotingOnce := by
  refine ⟨rfl, rfl, rfl, rfl, fun h => ?_⟩
  have hstates : (electOf overfullVotingTwice).state = (electOf overfullVotingOnce).state := by
    rw [h]
  rw [show (electOf overfullVotingTwice).state = 5 from rfl,
    show (electOf overfullVotingOnce).state = 4 from rfl] at hstates
  exact absurd hstates (by omega)

/-- C4 (amended): the double invocation agrees with the single one
exactly when the first invocation leaves a record with no transition
guard due: then the second call is a no-op.  (With batched work left
over — VotingOpen with > 100 pending voters, Cleanup migration — or with
a chained deadline already passed, the guard is still due and the second
call does more work.) -/
theorem double_advance_noop_when_not_due (ch : Chain) (now : Nat)
    (auths : List AccountName) (ch' : Chain) (acts : List ExtAct)
    (elect' : Election) (hfirst : updtstate ch now auths = .ok (ch', acts))
    (hsome : ch'.elect? = some elect') (hdue : ¬ DueGuard ch' elect' now) :
    updtstate ch' now auths = .ok (ch', []) :=
  state_refresh_not_due ch' elect' now auths hsome hdue

/-- A Created record whose nomination window has opened at time 10. -/
def createdDueChain : Chain :=
  mkChain { defaultElection with state := 1, nmn_open := 5, nmn_close := 20 }

/-- The same record after one advance: NominationOpen, window not yet
closing. -/
def nominationOpenChain : Chain :=
  mkChain { defaultElection with state := 2, nmn_open := 5, nmn_close := 20 }

/-- Witness: a Created record whose nomination window opened: the first
advance moves it to NominationOpen; no further guard holds at the same
time, so the second advance leaves the record unchanged. -/
theorem double_advance_noop_when_not_due_witness :
    updtstate nominationOpenChain 10 [] = .ok (nominationOpenChain, []) :=
  double_advance_noop_when_not_due createdDueChain 10 [] nominationOpenChain []
    { defaultElection with state := 2, nmn_open := 5, nmn_close := 20 }
    rfl rfl (by decide)

/-- The step function on a Created record whose nomination-open deadline
has passed: it flips state 1 to state 2 and changes nothing else. -/
theorem state_refresh_state1 (ch : Chain) (elect : Election) (now : Nat)
    (auths : List AccountName) (hsome : ch.elect? = some elect)
    (h1 : elect.state = 1) (hdue : elect.nmn_open ≤ now) :
    state_refresh ch now auths =
      .ok ({ ch with elect? := some { elect with state := 2 } }, []) := by
  unfold state_refresh
  rw [hsome]
  simp [h1, hdue]

/-! ## Claim C8 -/

/-- C8: `regvoter` on a voter without a `reggedvoters` flag creates the
flag, sends exactly one external registration call, and appends the voter
to `voter` (pending) — except when `synced_voter` is non-empty and
`voter` is empty, in which case it appends to `synced_voter`; on a voter
whose flag already exists the call changes nothing and sends nothing. -/
theorem regvoter_characterization (ch : Chain) (elect : Election)
    (voter : AccountName) (accounts auths : List AccountName)
    (hsome : ch.elect? = some elect) (hauth : voter ∈ auths)
    (hacct : voter ∈ accounts) :
    (voter ∈ ch.regged → regvoter ch voter accounts auths = .ok (ch, [])) ∧
    (voter ∉ ch.regged →
      (elect.synced_voter ≠ [] ∧ elect.voter = [] →
        regvoter ch voter accounts auths =
          .ok ({ ch with elect? := some { elect with synced_voter := elect.synced_voter ++ [voter] }, regged := voter :: ch.regged },
               [ExtAct.regVoterCall voter])) ∧
      (¬ (elect.synced_voter ≠ [] ∧ elect.voter = []) →
        regvoter ch voter accounts auths =
          .ok ({ ch with elect? := some { elect with voter := elect.voter ++ [voter] }, regged := voter :: ch.regged },
               [ExtAct.regVoterCall voter]))) := by
  unfold regvoter
  rw [if_pos hauth, if_neg (not_not_intro hacct), hsome]
  refine ⟨fun hreg => by simp [hreg], fun hnreg => ⟨?_, ?_⟩⟩
  · rintro ⟨hsv, hv⟩
    simp [hnreg, hsv, hv]
  · intro hn
    by_cases hsv : elect.synced_voter = []
    · simp [hnreg, hsv]
    · have hv : elect.voter ≠ [] := fun hv => hn ⟨hsv, hv⟩
      simp [hnreg, hsv, hv, List.isEmpty_iff, List.length_eq_zero]

/-- A record mid-cycle: one synced voter, no pending voters. -/
def midCycleChain : Chain :=
  mkChain { defaultElection with synced_voter := [3] }

/-- Witness for C8: a fresh voter on an empty record goes to the pending
list; a fresh voter on a mid-cycle record (synced non-empty, pending
empty) goes to the synced list; a flagged voter is a no-op. -/
theorem regvoter_characterization_witness :
    regvoter (mkChain defaultElection) 7 [7] [7] =
      .ok ({ mkChain defaultElection with elect? := some { defaultElection with voter := [7] }, regged := [7] },
           [ExtAct.regVoterCall 7]) ∧
    regvoter midCycleChain 7 [7] [7] =
      .ok ({ midCycleChain with elect? := some { defaultElection with synced_voter := [3, 7] }, regged := [7] },
           [ExtAct.regVoterCall 7]) ∧
    regvoter { mkChain defaultElection with regged := [7] } 7 [7] [7] =
      .ok ({ mkChain defaultElection with regged := [7] }, []) := by
  refine ⟨?_, ?_, ?_⟩
  · exact ((regvoter_characterization (mkChain defaultElection) defaultElection 7
      [7] [7] rfl (by decide) (by decide)).2 (by decide)).2 (by decide)
  · exact ((regvoter_characterization midCycleChain
      { defaultElection with synced_voter := [3] } 7
      [7] [7] rfl (by decide) (by decide)).2 (by decide)).1 (by decide)
  · exact (regvoter_characterization { mkChain defaultElection with regged := [7] }
      defaultElection 7 [7] [7] rfl (by decide) (by decide)).1 (by decide)

/-! ## Claim C9 -/

/-- A Created record whose nomination window opened at time 5 and closes
at time 20 — so at time 10 the step function has a transition due. -/
def lateRegChain : Chain :=
  mkChain { defaultElection with state := 1, nmn_open := 5, nmn_close := 20 }

/-- The chain a successful `regvoter` call for voter 7 returns on
`lateRegChain`. -/
def lateRegResult : Chain :=
  { elect? := some { defaultElection with state := 1, nmn_open := 5, nmn_close := 20, voter := [7] },
    nominations := [], nominees := [], regged := [7] }

/-- The chain `lateRegResult` after one run of the step function at time 10. -/
def lateRegRefreshed : Chain :=
  { elect? := some { defaultElection with state := 2, nmn_open := 5, nmn_close := 20, voter := [7] },
    nominations := [], nominees := [], regged := [7] }

/-- C9 counterexample: a successful `regvoter` call does NOT invoke the
step function before returning.  At time 10 the record has a transition
due (state 1, `nmn_open = 5 ≤ 10`), and after that transition no further
guard holds (`nmn_close = 20 > 10`), so any call that ended with
`state_refresh` would return a record on which the step function is a
no-op.  But the result of `regvoter` is still in state 1, and running the step
function on it still changes it — `regvoter` returned without calling it. -/
theorem regvoter_does_not_invoke_step_function :
    regvoter lateRegChain 7 [7] [7] = .ok (lateRegResult, [ExtAct.regVoterCall 7]) ∧
    (electOf lateRegResult).state = 1 ∧
    state_refresh lateRegResult 10 [] = .ok (lateRegRefreshed, []) ∧
    lateRegRefreshed ≠ lateRegResult := by
  refine ⟨rfl, rfl, rfl, by decide⟩

/-- C9 (amended): `nominate`, `proclaim`, `nominf` and `endelection` end
by invoking the step function — observed here by the fact that each,
called on a record with a transition due, returns the advanced record
(state 2 from a due Created record; for `endelection`, the cleanup pass
already applied) — while `regvoter` does not invoke it.  Each part states
the success of the call together with the effect of the step function on its
result. -/
theorem mutating_actions_end_with_state_refresh :
    (∀ ch elect nominator nominee accounts now auths,
      ch.elect? = some elect → nominator ∈ auths → elect.state = 1 →
      nmFind nominee ch.nominations = none → nominee ∈ accounts →
      elect.nmn_open ≤ now →
      ∃ ch' acts, nominate ch nominator nominee accounts now auths = .ok (ch', acts) ∧
        (electOf ch').state = 2) ∧
    (∀ ch elect nominee now auths,
      ch.elect? = some elect → nominee ∈ auths → elect.state = 1 →
      (nmFind nominee ch.nominations).isSome → elect.nmn_open ≤ now →
      ∃ ch' acts, proclaim ch nominee true now auths = .ok (ch', acts) ∧
        (electOf ch').state = 2) ∧
    (∀ ch elect nmne prof nominee now auths,
      ch.elect? = some elect → nominee ∈ auths → elect.state = 1 →
      nmFind nominee ch.nominations = some nmne → nmne.accepted = true →
      pfFind nominee ch.nominees = some prof → elect.nmn_open ≤ now →
      ∃ ch' acts, nominf ch nominee "" "" "" "" "" "" true now auths = .ok (ch', acts) ∧
        (electOf ch').state = 2) ∧
    (∀ ch elect now auths,
      ch.elect? = some elect → selfAccount ∈ auths → elect.state = 5 →
      ∃ ch' acts, endelection ch now auths = .ok (ch', acts) ∧
        ch'.nominations = [] ∧ ch'.nominees = []) := by
  refine ⟨?_, ?_, ?_, ?_⟩
  · intro ch elect nominator nominee accounts now auths hsome hauth h1 hfind hacct hdue
    unfold nominate
    rw [if_pos hauth, hsome]
    simp only [h1]
    simp [hfind, hacct]
    exact ⟨_, ⟨_, state_refresh_state1 _ _ now auths rfl rfl hdue⟩, rfl⟩
  · intro ch elect nominee now auths hsome hauth h1 hfind hdue
    unfold proclaim
    rw [if_pos hauth, hsome]
    rcases hm : nmFind nominee ch.nominations with _ | nmne
    · rw [hm] at hfind
      exact absurd hfind (by simp)
    · simp only [h1]
      simp [hm]
      exact ⟨_, ⟨_, state_refresh_state1 _ _ now auths rfl h1 hdue⟩, rfl⟩
  · intro ch elect nmne prof nominee now auths hsome hauth h1 hfind hacc hprof hdue
    unfold nominf
    rw [if_pos hauth, hsome, hfind]
    simp only [h1]
    simp [hacc, hprof]
    exact ⟨_, ⟨_, state_refresh_state1 _ _ now auths rfl h1 hdue⟩, rfl⟩
  · intro ch elect now auths hsome hauth h5
    unfold endelection
    rw [if_pos hauth, hsome]
    simp only [h5]
    rw [state_refresh_state6 _ { elect with state := 6 } now auths rfl rfl]
    unfold cleanup
    rw [if_pos hauth]
    refine ⟨_, _, rfl, rfl, rfl⟩

/-- A NominationOpen-deadline scenario for the C9 witness: a Created
record due to open nominations, with one pending nomination for account 9
and a profile for it. -/
def dueCreatedChain : Chain :=
  { elect? := some { defaultElection with state := 1, nmn_open := 5, nmn_close := 20 },
    nominations := [{ nominee := 9, accepted := true }],
    nominees := [{ owner := 9, pname := "n", descriptor := "", picture := "",
                   telegram := "", twitter := "", wechat := "" }],
    regged := [] }

/-- A concluded record (state 5) with a leftover nomination. -/
def concludedDirtyChain : Chain :=
  { elect? := some { defaultElection with state := 5 },
    nominations := [{ nominee := 9, accepted := true }],
    nominees := [], regged := [] }

/-- Witness for the amended C9 statement: each of the four entry points,
run at a concrete input with a transition due, returns the advanced
record. -/
theorem mutating_actions_end_with_state_refresh_witness :
    (∃ ch' acts, nominate dueCreatedChain 8 8 [8] 10 [8] = .ok (ch', acts) ∧
      (electOf ch').state = 2) ∧
    (∃ ch' acts, proclaim dueCreatedChain 9 true 10 [9] = .ok (ch', acts) ∧
      (electOf ch').state = 2) ∧
    (∃ ch' acts, nominf dueCreatedChain 9 "" "" "" "" "" "" true 10 [9] = .ok (ch', acts) ∧
      (electOf ch').state = 2) ∧
    (∃ ch' acts, endelection concludedDirtyChain 0 [selfAccount] = .ok (ch', acts) ∧
      ch'.nominations = [] ∧ ch'.nominees = []) := by
  refine ⟨?_, ?_, ?_, ?_⟩
  · exact mutating_actions_end_with_state_refresh.1 dueCreatedChain
      { defaultElection with state := 1, nmn_open := 5, nmn_close := 20 }
      8 8 [8] 10 [8] rfl (by decide) rfl (by decide) (by decide) (by decide)
  · exact mutating_actions_end_with_state_refresh.2.1 dueCreatedChain
      { defaultElection with state := 1, nmn_open := 5, nmn_close := 20 }
      9 10 [9] rfl (by decide) rfl (by decide) (by decide)
  · exact mutating_actions_end_with_state_refresh.2.2.1 dueCreatedChain
      { defaultElection with state := 1, nmn_open := 5, nmn_close := 20 }
      { nominee := 9, accepted := true }
      { owner := 9, pname := "n", descriptor := "", picture := "",
        telegram := "", twitter := "", wechat := "" }
      9 10 [9] rfl (by decide) rfl (by decide) rfl (by decide) (by decide)
  · exact mutating_actions_end_with_state_refresh.2.2.2 concludedDirtyChain
      { defaultElection with state := 5 } 0 [selfAccount] rfl
      (List.mem_singleton.mpr rfl) rfl

/-! ## Claims C6 and C7: the nomination registry -/

/-- The number of unaccepted rows of a nomination table. -/
def countUnaccepted (l : List Nomination) : Nat :=
  (l.filter fun m => ! m.accepted).length

/-- Decrementing with `u8dec` is plain decrement on in-range values. -/
theorem u8dec_eq (c : Nat) (h1 : 1 ≤ c) (h2 : c ≤ 256) : u8dec c = c - 1 := by
  unfold u8dec
  omega

/-- The purge scan removes exactly the unaccepted rows and decrements the
count once per removed row (no `uint8` wrap-around happens as long as the
count is in range and dominates the number of unaccepted rows). -/
theorem purgeNoms_spec (l : List Nomination) (c : Nat)
    (hle : countUnaccepted l ≤ c) (hmax : c ≤ 255) :
    purgeNoms l c = (l.filter (·.accepted), c - countUnaccepted l) := by
  induction l generalizing c with
  | nil => simp [purgeNoms, countUnaccepted]
  | cons m ms ih =>
    cases hm : m.accepted with
    | true =>
      have hcu : countUnaccepted (m :: ms) = countUnaccepted ms := by
        simp [countUnaccepted, hm]
      rw [hcu] at hle
      simp [purgeNoms, hm, ih c hle hmax, List.filter_cons, hcu]
    | false =>
      have hcu : countUnaccepted (m :: ms) = countUnaccepted ms + 1 := by
        simp [countUnaccepted, hm]
      rw [hcu] at hle
      have hc1 : 1 ≤ c := by omega
      rw [purgeNoms, if_neg (by simp [hm]), u8dec_eq c hc1 (by omega),
        ih (c - 1) (by omega) (by omega)]
      simp [List.filter_cons, hm, hcu]
      omega

/-- Every row surviving the purge was in the table before it. -/
theorem purgeNoms_fst_subset (l : List Nomination) (c : Nat) :
    ∀ x ∈ (purgeNoms l c).1, x ∈ l := by
  induction l generalizing c with
  | nil => simp [purgeNoms]
  | cons m ms ih =>
    intro x hx
    by_cases hm : m.accepted
    · simp only [purgeNoms, if_pos hm] at hx
      rcases List.mem_cons.mp hx with h | h
      · exact h ▸ List.mem_cons_self m ms
      · exact List.mem_cons_of_mem m (ih c x h)
    · simp only [purgeNoms, if_neg hm] at hx
      exact List.mem_cons_of_mem m (ih (u8dec c) x hx)

/-- The step function in states 1 and 2 never touches the nomination or
profile tables, and only ever changes the `state` field of the record. -/
theorem state_refresh_preserves_tables (ch : Chain) (elect : Election) (now : Nat)
    (auths : List AccountName) (hsome : ch.elect? = some elect)
    (h12 : elect.state = 1 ∨ elect.state = 2) :
    ∃ ch' acts, state_refresh ch now auths = .ok (ch', acts) ∧
      ch'.nominations = ch.nominations ∧ ch'.nominees = ch.nominees ∧
      ∃ st, ch'.elect? = some { elect with state := st } := by
  rcases h12 with h | h
  · by_cases hdue : elect.nmn_open ≤ now
    · exact ⟨_, _, state_refresh_state1 ch elect now auths hsome h hdue, rfl, rfl, 2, rfl⟩
    · exact ⟨ch, [], state_refresh_not_due ch elect now auths hsome
        (by simp [DueGuard, h, hdue]), rfl, rfl, elect.state, hsome⟩
  · by_cases hdue : elect.nmn_close ≤ now
    · by_cases hlen : 2 ≤ ((ch.nominations.filter (·.accepted)).map (·.nominee)).length
      · refine ⟨{ ch with elect? := some { elect with state := 3 } },
          [ExtAct.transferFee,
           ExtAct.newBallot elect.ballot selfAccount
             ((ch.nominations.filter (·.accepted)).map (·.nominee)),
           ExtAct.editDetails elect.ballot, ExtAct.toggleBal elect.ballot],
          ?_, rfl, rfl, 3, rfl⟩
        unfold state_refresh
        rw [hsome]
        simp [h, hdue]
        simpa using hlen
      · exact ⟨ch, [], state_refresh_not_due ch elect now auths hsome
          (by simp [DueGuard, h, hdue] at hlen ⊢; omega), rfl, rfl, elect.state, hsome⟩
    · exact ⟨ch, [], state_refresh_not_due ch elect now auths hsome
        (by simp [DueGuard, h, hdue]), rfl, rfl, elect.state, hsome⟩

/-- The table and count after the conditional spam purge of `nominate`. -/
def postPurge (ch : Chain) (elect : Election) : List Nomination × Nat :=
  if 200 < elect.nom_count then purgeNoms ch.nominations elect.nom_count
  else (ch.nominations, elect.nom_count)

/-- The chain `nominate` hands to its final `state_refresh` call: purged
table plus the new row, and the incremented count. -/
def nominateMid (ch : Chain) (elect : Election) (nominator nominee : AccountName) : Chain :=
  { ch with
    elect? := some { elect with nom_count := u8inc (postPurge ch elect).2 },
    nominations := nmInsert
      { nominee := nominee,
        accepted := decide (nominator = nominee) && decide ((postPurge ch elect).2 < 150) }
      (postPurge ch elect).1 }

/-- A successful `nominate` call is exactly `state_refresh` applied to
the purged-and-inserted chain. -/
theorem nominate_eq_refresh_mid (ch : Chain) (elect : Election)
    (nominator nominee : AccountName) (accounts : List AccountName)
    (now : Nat) (auths : List AccountName)
    (hsome : ch.elect? = some elect) (hauth : nominator ∈ auths)
    (hs0 : elect.state ≠ 0) (hs2 : elect.state ≤ 2)
    (hfind : nmFind nominee ch.nominations = none) (hacct : nominee ∈ accounts) :
    nominate ch nominator nominee accounts now auths =
      state_refresh (nominateMid ch elect nominator nominee) now auths := by
  unfold nominate nominateMid postPurge
  rw [if_pos hauth, hsome]
  simp [hs0, hs2, hfind, hacct]

/-- C6: when `nominationCount > 200`, `nominate` purges every unaccepted
row (each purge decrementing the count) before inserting the new record:
afterwards the table is the accepted rows plus the new record, and the
count is the purged count plus one. -/
theorem nominate_spam_purge (ch : Chain) (elect : Election)
    (nominator nominee : AccountName) (accounts : List AccountName)
    (now : Nat) (auths : List AccountName)
    (hsome : ch.elect? = some elect) (hauth : nominator ∈ auths)
    (hs0 : elect.state ≠ 0) (hs2 : elect.state ≤ 2)
    (hfind : nmFind nominee ch.nominations = none) (hacct : nominee ∈ accounts)
    (hcap : 200 < elect.nom_count)
    (hcount : countUnaccepted ch.nominations ≤ elect.nom_count)
    (hmax : elect.nom_count ≤ 255) :
    ∃ ch' acts, nominate ch nominator nominee accounts now auths = .ok (ch', acts) ∧
      ch'.nominations =
        nmInsert
          { nominee := nominee,
            accepted := decide (nominator = nominee) &&
              decide (elect.nom_count - countUnaccepted ch.nominations < 150) }
          (ch.nominations.filter (·.accepted)) ∧
      (electOf ch').nom_count =
        (elect.nom_count - countUnaccepted ch.nominations + 1) % 256 := by
  obtain ⟨ch', acts, hrun, hnoms, hprofs, st, hel⟩ :=
    state_refresh_preserves_tables (nominateMid ch elect nominator nominee)
      { elect with nom_count := u8inc (postPurge ch elect).2 } now auths rfl
      (by
        rcases Nat.lt_or_ge elect.state 2 with h | h
        · exact Or.inl (show elect.state = 1 by omega)
        · exact Or.inr (show elect.state = 2 by omega))
  rw [nominate_eq_refresh_mid ch elect nominator nominee accounts now auths
    hsome hauth hs0 hs2 hfind hacct]
  have hpp : postPurge ch elect =
      (ch.nominations.filter (·.accepted),
       elect.nom_count - countUnaccepted ch.nominations) := by
    unfold postPurge
    rw [if_pos hcap, purgeNoms_spec ch.nominations elect.nom_count hcount hmax]
  refine ⟨ch', acts, hrun, ?_, ?_⟩
  · rw [hnoms]
    simp only [nominateMid, hpp]
  · rw [electOf, hel]
    simp only [Option.getD_some, hpp, u8inc]

/-- 201 nominations of which exactly the first 5 are accepted. -/
def spamNoms : List Nomination :=
  (List.range 201).map fun i => { nominee := 1000 + i, accepted := decide (i < 5) }

/-- A NominationOpen record carrying the 201 spam nominations. -/
def spamChain : Chain :=
  { elect? := some { defaultElection with state := 2, nmn_close := 1000, nom_count := 201 },
    nominations := spamNoms, nominees := [], regged := [] }

set_option maxRecDepth 100000 in
/-- Witness for C6, at the concrete scenario of the claim: 201 nominations
with exactly 5 accepted; the 202nd nomination purges the 196 unaccepted
rows and leaves `nom_count = 6` after the insert (6 rows in the table). -/
theorem nominate_spam_purge_witness :
    countUnaccepted spamNoms = 196 ∧
    ∃ ch' acts, nominate spamChain 7 7 [7] 0 [7] = .ok (ch', acts) ∧
      ch'.nominations.length = 6 ∧ (electOf ch').nom_count = 6 := by
  refine ⟨by decide, ?_⟩
  obtain ⟨ch', acts, hrun, hnoms, hcount⟩ :=
    nominate_spam_purge spamChain
      { defaultElection with state := 2, nmn_close := 1000, nom_count := 201 }
      7 7 [7] 0 [7] rfl (by decide) (by decide) (by decide) (by decide) (by decide)
      (by decide) (by decide) (by decide)
  refine ⟨ch', acts, hrun, ?_, ?_⟩
  · rw [hnoms]
    decide
  · rw [hcount]
    decide

/-- Looking up with `nmFind` after the ordered insert of a fresh key finds exactly the
new row. -/
theorem nmFind_insert (k : AccountName) (b : Bool) (l : List Nomination)
    (hnone : nmFind k l = none) :
    nmFind k (nmInsert { nominee := k, accepted := b } l) =
      some { nominee := k, accepted := b } := by
  induction l with
  | nil => simp [nmInsert, nmFind]
  | cons m ms ih =>
    have hm : ¬ ((m.nominee == k) = true) :=
      List.find?_eq_none.mp hnone m (List.mem_cons_self m ms)
    have hms : nmFind k ms = none :=
      List.find?_eq_none.mpr fun x hx =>
        List.find?_eq_none.mp hnone x (List.mem_cons_of_mem m hx)
    by_cases hlt : k < m.nominee
    · simp [nmInsert, hlt, nmFind]
    · simp only [nmInsert, if_neg hlt]
      have hmf : (m.nominee == k) = false := by
        revert hm
        cases m.nominee == k <;> simp
      unfold nmFind at ih ⊢
      rw [List.find?]
      simp only [hmf]
      exact ih hms

/-- An empty NominationOpen record whose window is far from closing. -/
def selfNomStart : Chain :=
  mkChain { defaultElection with state := 2, nmn_close := 1000 }

/-- The chain after the first `k` accounts (named 1..k) each
self-nominate, in order, at time 0. -/
def selfNomChain (k : Nat) : Chain :=
  (List.range k).foldl
    (fun c i => chainOf (nominate c (i + 1) (i + 1) [i + 1] 0 [i + 1]) c)
    selfNomStart

/-- The accepted flag of the k-th self-nomination after k such calls. -/
def selfNomAccepted (k : Nat) : Option Bool :=
  (nmFind k (selfNomChain k).nominations).map (·.accepted)

set_option maxRecDepth 1000000 in
/-- C7: a nomination is created with `accepted = true` iff the nominator
equals the nominee and the (possibly just-purged) count is strictly below
150; and concretely, starting from an empty registry, the 150th distinct
self-nomination is auto-accepted while the 151st is not. -/
theorem nominate_auto_accept :
    (∀ ch elect nominator nominee accounts now auths,
      ch.elect? = some elect → nominator ∈ auths → elect.state ≠ 0 →
      elect.state ≤ 2 → nmFind nominee ch.nominations = none → nominee ∈ accounts →
      ∃ ch' acts, nominate ch nominator nominee accounts now auths = .ok (ch', acts) ∧
        nmFind nominee ch'.nominations =
          some { nominee := nominee,
                 accepted := decide (nominator = nominee) &&
                   decide ((postPurge ch elect).2 < 150) }) ∧
    selfNomAccepted 150 = some true ∧ selfNomAccepted 151 = some false := by
  refine ⟨?_, by decide, by decide⟩
  intro ch elect nominator nominee accounts now auths hsome hauth hs0 hs2 hfind hacct
  obtain ⟨ch', acts, hrun, hnoms, hprofs, st, hel⟩ :=
    state_refresh_preserves_tables (nominateMid ch elect nominator nominee)
      { elect with nom_count := u8inc (postPurge ch elect).2 } now auths rfl
      (by
        rcases Nat.lt_or_ge elect.state 2 with h | h
        · exact Or.inl (show elect.state = 1 by omega)
        · exact Or.inr (show elect.state = 2 by omega))
  rw [nominate_eq_refresh_mid ch elect nominator nominee accounts now auths
    hsome hauth hs0 hs2 hfind hacct]
  refine ⟨ch', acts, hrun, ?_⟩
  rw [hnoms]
  show nmFind nominee
      (nmInsert { nominee := nominee,
                  accepted := decide (nominator = nominee) &&
                    decide ((postPurge ch elect).2 < 150) }
        (postPurge ch elect).1) = _
  apply nmFind_insert
  unfold postPurge
  by_cases hcap : 200 < elect.nom_count
  · rw [if_pos hcap]
    exact List.find?_eq_none.mpr fun x hx =>
      List.find?_eq_none.mp hfind x
        (purgeNoms_fst_subset ch.nominations elect.nom_count x hx)
  · rw [if_neg hcap]
    exact hfind

/-- Witness for the universally quantified part of C7: a single
self-nomination on the empty NominationOpen registry is accepted. -/
theorem nominate_auto_accept_witness :
    ∃ ch' acts, nominate selfNomStart 4 4 [4] 0 [4] = .ok (ch', acts) ∧
      nmFind 4 ch'.nominations = some { nominee := 4, accepted := true } := by
  obtain ⟨ch', acts, hrun, hfound⟩ :=
    nominate_auto_accept.1 selfNomStart
      { defaultElection with state := 2, nmn_close := 1000 }
      4 4 [4] 0 [4] rfl (by decide) (by decide) (by decide) rfl (by decide)
  refine ⟨ch', acts, hrun, ?_⟩
  rw [hfound]
  decide

/-! ## Claim C5: the pending/synced disjointness invariant -/

/-- The operations of the voter-tracking claim: a voter registration, a
public advance (state_refresh, performing the VotingOpen synchronization
batches), and a direct cleanup call (performing the migration steps).
Advance and cleanup carry the operator authorization so the Cleanup-state
branch executes instead of aborting. -/
inductive VoterOp where
  | reg (voter : AccountName) (accounts : List AccountName)
  | advance (now : Nat)
  | clean

/-- Running one operation; an aborted call leaves the chain unchanged. -/
def applyOp (ch : Chain) : VoterOp → Chain
  | .reg v accounts => chainOf (regvoter ch v accounts [v]) ch
  | .advance now => chainOf (state_refresh ch now [selfAccount]) ch
  | .clean => chainOf (cleanup ch [selfAccount]) ch

/-- Running a sequence of operations. -/
def runOps (ch : Chain) : List VoterOp → Chain
  | [] => ch
  | op :: ops => runOps (applyOp ch op) ops

/-- The contract right after a clean start: the default record and empty
tables. -/
def startChain : Chain := mkChain defaultElection

/-- The combined voter pool of a chain: pending then synced. -/
def pool (ch : Chain) : List AccountName :=
  (electOf ch).voter ++ (electOf ch).synced_voter

/-- The voter-tracking invariant: the two vectors together hold no
duplicate, and every tracked voter carries a registration flag. -/
def VoterInv (ch : Chain) : Prop :=
  (pool ch).Nodup ∧ ∀ v ∈ pool ch, v ∈ ch.regged

/-- A chain whose pool is a permutation of the pool of another chain, with the
same flags, inherits the voter-tracking invariant. -/
theorem voterInv_of_perm (ch ch' : Chain)
    (hperm : List.Perm (pool ch') (pool ch)) (hreg : ch'.regged = ch.regged)
    (hinv : VoterInv ch) : VoterInv ch' := by
  constructor
  · exact hperm.nodup_iff.mpr hinv.1
  · intro v hv
    rw [hreg]
    exact hinv.2 v (hperm.mem_iff.mp hv)

/-- The move loop permutes the combined pool. -/
theorem moveLoop_pool_perm (n : Nat) (e : Election) :
    List.Perm ((moveLoop n e).voter ++ (moveLoop n e).synced_voter)
      (e.voter ++ e.synced_voter) := by
  rw [moveLoop_spec]
  have h1 : List.Perm
      (e.voter.take (e.voter.length - n) ++
        (e.synced_voter ++ (e.voter.drop (e.voter.length - n)).reverse))
      (e.voter.take (e.voter.length - n) ++
        ((e.voter.drop (e.voter.length - n)).reverse ++ e.synced_voter)) :=
    List.Perm.append_left _ List.perm_append_comm
  have h2 : List.Perm
      ((e.voter.take (e.voter.length - n) ++
        (e.voter.drop (e.voter.length - n)).reverse) ++ e.synced_voter)
      ((e.voter.take (e.voter.length - n) ++
        e.voter.drop (e.voter.length - n)) ++ e.synced_voter) :=
    List.Perm.append_right _ (List.Perm.append_left _ (List.reverse_perm _))
  refine h1.trans ?_
  rw [← List.append_assoc]
  refine h2.trans ?_
  rw [List.take_append_drop]

/-- Running `cleanup` permutes the combined pool and leaves the flags alone. -/
theorem cleanup_pool_perm (ch : Chain) (auths : List AccountName) :
    List.Perm (pool (chainOf (cleanup ch auths) ch)) (pool ch) ∧
    (chainOf (cleanup ch auths) ch).regged = ch.regged := by
  unfold cleanup
  by_cases hauth : selfAccount ∈ auths
  swap
  · rw [if_neg hauth]
    exact ⟨List.Perm.refl _, rfl⟩
  rw [if_pos hauth]
  rcases h : ch.elect? with _ | elect
  · exact ⟨List.Perm.refl _, rfl⟩
  have hpool : pool ch = elect.voter ++ elect.synced_voter := by
    simp [pool, electOf, h]
  rw [hpool]
  simp only [chainOf]
  by_cases hsv : elect.synced_voter.isEmpty
  · rw [if_neg (not_not_intro hsv)]
    exact ⟨List.Perm.refl _, True.intro⟩
  · rw [if_pos hsv]
    by_cases hv : elect.voter.isEmpty
    · rw [if_neg (not_not_intro hv)]
      have hvnil : elect.voter = [] := List.isEmpty_iff.mp hv
      refine ⟨?_, True.intro⟩
      show List.Perm (elect.synced_voter ++ ([] : List AccountName))
        (elect.voter ++ elect.synced_voter)
      rw [hvnil, List.append_nil, List.nil_append]
    · rw [if_pos hv]
      exact ⟨moveLoop_pool_perm 200 { elect with nom_count := 0 }, True.intro⟩

/-- The step function permutes the combined pool and leaves the flags
alone, whatever the state and time. -/
theorem state_refresh_pool_perm (ch : Chain) (now : Nat) (auths : List AccountName) :
    List.Perm (pool (chainOf (state_refresh ch now auths) ch)) (pool ch) ∧
    (chainOf (state_refresh ch now auths) ch).regged = ch.regged := by
  unfold state_refresh
  rcases h : ch.elect? with _ | elect
  · exact ⟨List.Perm.refl _, rfl⟩
  have hpool : pool ch = elect.voter ++ elect.synced_voter := by
    simp [pool, electOf, h]
  have hbase : List.Perm (pool ch) (elect.voter ++ elect.synced_voter) := by
    rw [hpool]
  rw [hpool]
  simp only [chainOf]
  by_cases h0 : elect.state = 0
  · rw [if_pos h0]
    exact ⟨hbase, rfl⟩
  rw [if_neg h0]
  by_cases h1 : elect.state = 1
  · rw [if_pos h1]
    by_cases hdue : elect.nmn_open ≤ now
    · rw [if_pos hdue]
      exact ⟨List.Perm.refl _, rfl⟩
    · rw [if_neg hdue]
      exact ⟨hbase, rfl⟩
  rw [if_neg h1]
  by_cases h2 : elect.state = 2
  · rw [if_pos h2]
    by_cases hdue : elect.nmn_close ≤ now
    · rw [if_pos hdue]
      by_cases hlen :
          2 ≤ ((ch.nominations.filter (·.accepted)).map (·.nominee)).length
      · rw [if_pos hlen]
        exact ⟨List.Perm.refl _, rfl⟩
      · rw [if_neg hlen]
        exact ⟨hbase, rfl⟩
    · rw [if_neg hdue]
      exact ⟨hbase, rfl⟩
  rw [if_neg h2]
  by_cases h3 : elect.state = 3
  · rw [if_pos h3]
    by_cases hdue : elect.vote_open ≤ now
    · rw [if_pos hdue]
      exact ⟨List.Perm.refl _, rfl⟩
    · rw [if_neg hdue]
      exact ⟨hbase, rfl⟩
  rw [if_neg h3]
  by_cases h4 : elect.state = 4
  · rw [if_pos h4]
    by_cases hdue : elect.vote_close ≤ now
    · rw [if_pos hdue]
      have hp := moveLoop_pool_perm 100 elect
      rw [← syncLoop_fst] at hp
      by_cases hempty : (syncLoop 100 elect).1.voter.isEmpty
      · rw [if_pos hempty]
        exact ⟨hp, rfl⟩
      · rw [if_neg hempty]
        exact ⟨hp, rfl⟩
    · rw [if_neg hdue]
      exact ⟨hbase, rfl⟩
  rw [if_neg h4]
  by_cases h5 : elect.state = 5
  · rw [if_pos h5]
    exact ⟨hbase, rfl⟩
  rw [if_neg h5]
  by_cases h6 : elect.state = 6
  · rw [if_pos h6]
    have hc := cleanup_pool_perm ch auths
    rw [hpool] at hc
    exact ⟨hc.1, hc.2⟩
  · rw [if_neg h6]
    exact ⟨hbase, rfl⟩

/-- Appending a fresh flagged voter to the pending vector preserves the
invariant. -/
theorem voterInv_extend_voter (ch : Chain) (elect : Election) (v : AccountName)
    (h : ch.elect? = some elect) (hreg : v ∉ ch.regged) (hinv : VoterInv ch) :
    VoterInv { ch with elect? := some { elect with voter := elect.voter ++ [v] }, regged := v :: ch.regged } := by
  have hpool : pool ch = elect.voter ++ elect.synced_voter := by
    simp [pool, electOf, h]
  have hvnot : v ∉ elect.voter ++ elect.synced_voter := by
    intro hmem
    exact hreg (hinv.2 v (by rw [hpool]; exact hmem))
  have hperm : List.Perm ((elect.voter ++ [v]) ++ elect.synced_voter)
      (v :: (elect.voter ++ elect.synced_voter)) := by
    rw [List.append_assoc, List.singleton_append]
    exact List.perm_middle
  constructor
  · show ((elect.voter ++ [v]) ++ elect.synced_voter).Nodup
    refine hperm.nodup_iff.mpr ?_
    refine List.nodup_cons.mpr ⟨hvnot, ?_⟩
    have h1 := hinv.1
    rw [hpool] at h1
    exact h1
  · intro x hx
    have hx' : x ∈ v :: (elect.voter ++ elect.synced_voter) := hperm.mem_iff.mp hx
    rcases List.mem_cons.mp hx' with hx' | hx'
    · exact hx' ▸ List.mem_cons_self v ch.regged
    · exact List.mem_cons_of_mem v (hinv.2 x (by rw [hpool]; exact hx'))

/-- Appending a fresh flagged voter to the synced vector preserves the
invariant. -/
theorem voterInv_extend_synced (ch : Chain) (elect : Election) (v : AccountName)
    (h : ch.elect? = some elect) (hreg : v ∉ ch.regged) (hinv : VoterInv ch) :
    VoterInv { ch with elect? := some { elect with synced_voter := elect.synced_voter ++ [v] }, regged := v :: ch.regged } := by
  have hpool : pool ch = elect.voter ++ elect.synced_voter := by
    simp [pool, electOf, h]
  have hvnot : v ∉ elect.voter ++ elect.synced_voter := by
    intro hmem
    exact hreg (hinv.2 v (by rw [hpool]; exact hmem))
  have hperm : List.Perm (elect.voter ++ (elect.synced_voter ++ [v]))
      (v :: (elect.voter ++ elect.synced_voter)) := by
    rw [← List.append_assoc]
    exact List.perm_append_singleton v _
  constructor
  · show (elect.voter ++ (elect.synced_voter ++ [v])).Nodup
    refine hperm.nodup_iff.mpr ?_
    refine List.nodup_cons.mpr ⟨hvnot, ?_⟩
    have h1 := hinv.1
    rw [hpool] at h1
    exact h1
  · intro x hx
    have hx' : x ∈ v :: (elect.voter ++ elect.synced_voter) := hperm.mem_iff.mp hx
    rcases List.mem_cons.mp hx' with hx' | hx'
    · exact hx' ▸ List.mem_cons_self v ch.regged
    · exact List.mem_cons_of_mem v (hinv.2 x (by rw [hpool]; exact hx'))

/-- Running `regvoter` preserves the voter-tracking invariant. -/
theorem voterInv_regvoter (ch : Chain) (v : AccountName)
    (accounts auths : List AccountName) (hinv : VoterInv ch) :
    VoterInv (chainOf (regvoter ch v accounts auths) ch) := by
  unfold regvoter
  by_cases hauth : v ∈ auths
  swap
  · rw [if_neg hauth]
    exact hinv
  rw [if_pos hauth]
  by_cases hacct : v ∈ accounts
  swap
  · rw [if_pos hacct]
    exact hinv
  rw [if_neg (not_not_intro hacct)]
  rcases h : ch.elect? with _ | elect
  · exact hinv
  simp only [chainOf]
  by_cases hreg : v ∈ ch.regged
  · rw [if_pos hreg]
    exact hinv
  rw [if_neg hreg]
  by_cases hsv : elect.synced_voter.isEmpty
  · rw [if_neg (not_not_intro hsv)]
    exact voterInv_extend_voter ch elect v h hreg hinv
  · rw [if_pos hsv]
    by_cases hlen : elect.voter.length ≠ 0
    · rw [if_pos hlen]
      exact voterInv_extend_voter ch elect v h hreg hinv
    · rw [if_neg hlen]
      exact voterInv_extend_synced ch elect v h hreg hinv

/-- Every operation preserves the voter-tracking invariant. -/
theorem voterInv_applyOp (ch : Chain) (op : VoterOp) (hinv : VoterInv ch) :
    VoterInv (applyOp ch op) := by
  cases op with
  | reg v accounts => exact voterInv_regvoter ch v accounts [v] hinv
  | advance now =>
    have hp := state_refresh_pool_perm ch now [selfAccount]
    exact voterInv_of_perm ch _ hp.1 hp.2 hinv
  | clean =>
    have hp := cleanup_pool_perm ch [selfAccount]
    exact voterInv_of_perm ch _ hp.1 hp.2 hinv

/-- The invariant holds after any operation sequence from an invariant
state. -/
theorem voterInv_runOps (ch : Chain) (ops : List VoterOp) (hinv : VoterInv ch) :
    VoterInv (runOps ch ops) := by
  induction ops generalizing ch with
  | nil => exact hinv
  | cons op ops ih => exact ih _ (voterInv_applyOp ch op hinv)

/-- C5: `pendingVoters ∩ syncedVoters = ∅` after every operation, for
every sequence of voter registrations, synchronization batches (the step
function, in any state and at any time) and cleanup migration steps,
starting from the empty record. -/
theorem pending_synced_disjoint (ops : List VoterOp) :
    ((electOf (runOps startChain ops)).voter).inter
      ((electOf (runOps startChain ops)).synced_voter) = [] := by
  have hinv : VoterInv (runOps startChain ops) := by
    refine voterInv_runOps startChain ops ⟨?_, ?_⟩
    · simp [pool, startChain, mkChain, electOf, defaultElection]
    · intro v hv
      simp [pool, startChain, mkChain, electOf, defaultElection] at hv
  have hdisj : List.Disjoint ((electOf (runOps startChain ops)).voter)
      ((electOf (runOps startChain ops)).synced_voter) :=
    (List.nodup_append.mp hinv.1).2.2
  exact List.inter_eq_nil_iff_disjoint.mpr hdisj

end OigContract
